import Mathlib

/-!
Verification of the Disaster-Risk-Platform core: a shallow embedding of the
risk-fusion engine (`app/services/risk_engine/composite.py`,
`app/services/risk_engine/final_risk.py`), the ML fallback predictor
(`app/ml/model.py`) and the constrained resource allocator
(`app/services/optimizer.py`).  Python floats are modelled as exact
rationals (ℚ), Python ints as ℤ/ℕ, dict-`get`-with-default and `or`
defaulting as explicit `Option` handling.
-/

namespace DRP

/-- Python `x or d` on an optional numeric value: `None` and `0` are falsy
and give the default `d`. -/
def pyOr (o : Option ℚ) (d : ℚ) : ℚ :=
  match o with
  | none => d
  | some v => if v = 0 then d else v

/-- Python `a or b` where both sides are optional numerics (`None`/`0` falsy). -/
def pyOrOpt (a b : Option ℚ) : Option ℚ :=
  match a with
  | none => b
  | some v => if v = 0 then b else some v

/-- Round-half-to-even on a rational, to an integer (the semantics of
Python 3 `round` modelled over exact rationals). -/
def rhe (x : ℚ) : ℤ :=
  let f := ⌊x⌋
  let r := x - f
  if r < 1/2 then f
  else if 1/2 < r then f + 1
  else if f % 2 = 0 then f else f + 1

/-- Python `round(x, d)` over exact rationals. -/
def roundq (d : ℕ) (x : ℚ) : ℚ :=
  (rhe (x * 10 ^ d) : ℚ) / 10 ^ d

/-! ### Layer 1: `CompositeRiskCalculator` (composite.py)

Risk-threshold and delta-threshold settings from `app/db/config.py`
(`Settings`): `RISK_LOW_THRESHOLD = 30`, `RISK_MODERATE_THRESHOLD = 60`,
`RISK_HIGH_THRESHOLD = 80`, `DELTA_SURGE_THRESHOLD = 20.0`,
`DELTA_CRITICAL_THRESHOLD = 40.0`. -/

def RISK_LOW_THRESHOLD : ℚ := 30
def RISK_MODERATE_THRESHOLD : ℚ := 60
def RISK_HIGH_THRESHOLD : ℚ := 80
def DELTA_SURGE_THRESHOLD : ℚ := 20
def DELTA_CRITICAL_THRESHOLD : ℚ := 40

/-- `CompositeRiskCalculator.get_risk_category` (composite.py 317-326). -/
def get_risk_category (score : ℚ) : String :=
  if RISK_HIGH_THRESHOLD ≤ score then "critical"
  else if RISK_MODERATE_THRESHOLD ≤ score then "high"
  else if RISK_LOW_THRESHOLD ≤ score then "moderate"
  else "low"

structure DeltaResult where
  delta : ℚ
  delta_pct : ℚ
  surge_level : String
  surge_alert : Bool
  critical_alert : Bool
deriving DecidableEq, Repr

/-- `CompositeRiskCalculator.calculate_risk_delta` (composite.py 284-313). -/
def calculate_risk_delta (event_risk baseline_risk : ℚ) : DeltaResult :=
  let delta := event_risk - baseline_risk
  let delta_pct := if 0 < baseline_risk then delta / baseline_risk * 100 else 0
  let surge_level :=
    if DELTA_CRITICAL_THRESHOLD ≤ delta_pct then "critical"
    else if DELTA_SURGE_THRESHOLD ≤ delta_pct then "surge"
    else if 10 ≤ delta_pct then "elevated"
    else if delta_pct ≤ -10 then "decreasing"
    else "stable"
  { delta := roundq 2 delta
    delta_pct := roundq 2 delta_pct
    surge_level := surge_level
    surge_alert := decide (DELTA_SURGE_THRESHOLD ≤ delta_pct)
    critical_alert := decide (DELTA_CRITICAL_THRESHOLD ≤ delta_pct) }

/-! ### Layer 2 fallback: `MLRiskModel` without a trained model (model.py)

When `flood_model`/`heat_model` is `None`, `predict_flood`/`predict_heat`
fall back to the rule-based probabilities below (model.py 125-196, 224-273),
with `confidence = 0.5`. -/

structure WeatherCurrent where
  rainfall_mm : Option ℚ
  temperature_c : Option ℚ
deriving DecidableEq, Repr

structure WeatherForecast where
  rainfall_48h_mm : Option ℚ
  avg_temp_forecast_c : Option ℚ
deriving DecidableEq, Repr

structure WeatherData where
  current : WeatherCurrent
  forecast : WeatherForecast
deriving DecidableEq, Repr

structure MLWard where
  elevation_m : Option ℚ
  mean_slope : Option ℚ
  population_density : Option ℚ
  infrastructure_density : Option ℚ
  historical_flood_frequency : Option ℚ
  drainage_index : Option ℚ
  impervious_surface_pct : Option ℚ
  low_lying_index : Option ℚ
  elderly_ratio : Option ℚ
  baseline_avg_temp_c : Option ℚ
deriving DecidableEq, Repr

/-- `MLRiskModel.extract_features` (model.py 100-123): the 11-entry feature
vector, with Python `or`-defaults. -/
def extract_features (ward : MLWard) (weather_data : Option WeatherData) : List ℚ :=
  let current_rainfall :=
    match weather_data with
    | some wd => pyOr wd.current.rainfall_mm 0
    | none => 0
  let forecast_rainfall_48h :=
    match weather_data with
    | some wd => pyOr wd.forecast.rainfall_48h_mm 0
    | none => 0
  [ current_rainfall,
    forecast_rainfall_48h,
    pyOr ward.elevation_m 560,
    pyOr ward.mean_slope 2,
    pyOr ward.population_density 10000,
    pyOr ward.infrastructure_density 3,
    pyOr ward.historical_flood_frequency (1/2),
    pyOr ward.drainage_index (1/2),
    (pyOr ward.impervious_surface_pct 50) / 100,
    pyOr ward.low_lying_index (1/2),
    pyOr ward.elderly_ratio (1/10) ]

/-- `MLRiskModel._fallback_flood_probability` (model.py 224-255). -/
def fallback_flood_probability (features : List ℚ) : ℚ :=
  let rainfall := features.getD 0 0
  let cumulative := features.getD 1 0
  let elevation := features.getD 2 0
  let drainage := features.getD 7 0
  let low_lying := features.getD 9 0
  let p1 : ℚ := if 50 < rainfall then 2/5 else if 20 < rainfall then 1/5
    else if 5 < rainfall then 1/20 else 0
  let p2 : ℚ := if 150 < cumulative then 1/4 else if 75 < cumulative then 3/25
    else if 25 < cumulative then 1/20 else 0
  let elev_factor := max 0 ((600 - elevation) / 100) * (1/10)
  let p3 := min (1/10) elev_factor
  let p4 := (1 - drainage) * (1/10)
  let p5 := low_lying * (1/10)
  max 0 (min 1 (p1 + p2 + p3 + p4 + p5))

/-- `MLRiskModel._fallback_heat_probability` (model.py 263-273). -/
def fallback_heat_probability (features : List ℚ) : ℚ :=
  let elderly := features.getD 10 0
  let density := features.getD 4 0
  let p := 3/20 + min (3/10) (elderly / (1/5) * (3/20)) + min (1/5) (density / 30000 * (1/10))
  max 0 (min 1 p)

structure MLPred where
  probability : ℚ
  confidence : ℚ
deriving DecidableEq, Repr

/-- `MLRiskModel.predict_flood` (model.py 125-143) in the `flood_model is
None` branch: the rule-based fallback probability, confidence 0.5. -/
def predict_flood_noModel (ward : MLWard) (weather_data : Option WeatherData) : MLPred :=
  let features := extract_features ward weather_data
  let probability := fallback_flood_probability features
  { probability := roundq 4 probability, confidence := roundq 4 (1/2) }

/-- The weather-based attenuation factor of `MLRiskModel.predict_heat`
(model.py 166-189): keyed off the temperature anomaly versus the ward
baseline; 0.25 when no usable temperature is available. -/
def heat_attenuation (ward : MLWard) (weather_data : Option WeatherData) : ℚ :=
  let baseline_temp := pyOr ward.baseline_avg_temp_c 28
  match weather_data with
  | none => 1/4
  | some wd =>
    match pyOrOpt wd.current.temperature_c wd.forecast.avg_temp_forecast_c with
    | none => 1/4
    | some t =>
      let anomaly := t - baseline_temp
      if 8 ≤ anomaly then 1
      else if 6 ≤ anomaly then 3/4
      else if 4 ≤ anomaly then 9/20
      else if 2 ≤ anomaly then 1/4
      else if 0 ≤ anomaly then 3/25
      else 1/20

/-- `MLRiskModel.predict_heat` (model.py 145-196) in the `heat_model is
None` branch: the rule-based fallback probability attenuated by the
temperature-anomaly band, confidence 0.5. -/
def predict_heat_noModel (ward : MLWard) (weather_data : Option WeatherData) : MLPred :=
  let features := extract_features ward weather_data
  let raw_probability := fallback_heat_probability features
  let probability := raw_probability * heat_attenuation ward weather_data
  { probability := roundq 4 probability, confidence := roundq 4 (1/2) }

/-! ### `FinalRiskCalculator.calculate_full_risk` (final_risk.py 35-200)

The fusion stage is embedded as a function of the outputs of the upstream
calls it makes: the composite baseline/event risks, the two ML predictions,
the data-completeness value, whether weather data is present, whether a db
session was passed, and — for spillover — each neighbor's most recent prior
`final_combined_risk` (`None` when the neighbor has no prior record or a
null score).  The spillover threshold (`settings.NEIGHBOR_RISK_THRESHOLD`,
default 80.0) and boost percentage (`settings.NEIGHBOR_SPILLOVER_PCT`,
default 5.0) are passed explicitly since they are configurable settings.
`settings.ML_COMPOSITE_WEIGHT = 0.60`, `settings.ML_MODEL_WEIGHT = 0.40`. -/

def ML_COMPOSITE_WEIGHT : ℚ := 3/5
def ML_MODEL_WEIGHT : ℚ := 2/5

structure FusionInput where
  flood_baseline : ℚ
  heat_baseline : ℚ
  flood_event : ℚ
  heat_event : ℚ
  ml_flood : MLPred
  ml_heat : MLPred
  data_completeness : ℚ
  weather_present : Bool
  hasDb : Bool
  /-- for each neighbor: its id and its most recent prior combined risk -/
  neighbors : List (Nat × Option ℚ)
deriving DecidableEq, Repr

/-- Python truthiness test on a neighbor's most recent score at
final_risk.py 86-87: `neighbor_score and neighbor_score.final_combined_risk
and neighbor_score.final_combined_risk >= settings.NEIGHBOR_RISK_THRESHOLD`
(a risk of `0.0` is falsy and never triggers). -/
def spillTrigger (th : ℚ) (o : Option ℚ) : Bool :=
  match o with
  | none => false
  | some v => decide (¬ v = 0) && decide (th ≤ v)

/-- The spillover source list of `calculate_full_risk` (final_risk.py
75-89): gathered only when a db session is present; a neighbor triggers
when its most recent prior score is truthy and ≥ the threshold. -/
def spillover_sources_of (inp : FusionInput) (neighbor_risk_threshold : ℚ) : List Nat :=
  if inp.hasDb then
    ((inp.neighbors.filter (fun nb => spillTrigger neighbor_risk_threshold nb.2)).map
      (fun nb => nb.1))
  else []

structure FusedRecord where
  final_flood_risk : ℚ
  final_heat_risk : ℚ
  final_combined_risk : ℚ
  flood_risk_delta_pct : ℚ
  heat_risk_delta_pct : ℚ
  confidence_score : ℚ
  uncertainty_score : ℚ
  spillover_applied : Bool
  spillover_sources : List Nat
  top_hazard : String
  risk_category : String
  surge_alert : Bool
  critical_alert : Bool
deriving DecidableEq, Repr

/-- `FinalRiskCalculator.calculate_full_risk` (final_risk.py 35-200), from
the fusion step on, as a function of the upstream call results. -/
def calculate_full_risk (inp : FusionInput) (neighbor_risk_threshold spillover_pct_setting : ℚ) :
    FusedRecord :=
  let final_flood0 := ML_COMPOSITE_WEIGHT * inp.flood_event +
    ML_MODEL_WEIGHT * inp.ml_flood.probability * 100
  let final_heat0 := ML_COMPOSITE_WEIGHT * inp.heat_event +
    ML_MODEL_WEIGHT * inp.ml_heat.probability * 100
  let final_flood1 := roundq 2 (min 100 (max 0 final_flood0))
  let final_heat1 := roundq 2 (min 100 (max 0 final_heat0))
  let spillover_sources := spillover_sources_of inp neighbor_risk_threshold
  let spillover_applied := !spillover_sources.isEmpty
  let spillover_pct := spillover_pct_setting / 100
  let final_flood := if spillover_sources.isEmpty then final_flood1
    else min 100 (final_flood1 * (1 + spillover_pct))
  let final_heat := if spillover_sources.isEmpty then final_heat1
    else min 100 (final_heat1 * (1 + spillover_pct))
  let final_combined := max final_flood final_heat
  let flood_delta := calculate_risk_delta inp.flood_event inp.flood_baseline
  let heat_delta := calculate_risk_delta inp.heat_event inp.heat_baseline
  let ml_confidence := (inp.ml_flood.confidence + inp.ml_heat.confidence) / 2
  let weather_available : ℚ := if inp.weather_present then 1 else 0
  let confidence_score := roundq 4 ((2/5) * inp.data_completeness +
    (3/10) * ml_confidence + (3/10) * weather_available)
  let surge_alert := flood_delta.surge_alert || heat_delta.surge_alert
  let critical_alert := flood_delta.critical_alert || heat_delta.critical_alert
  let top_hazard :=
    if final_heat < final_flood ∧ 30 < final_flood then "flood"
    else if final_flood < final_heat ∧ 30 < final_heat then "heat"
    else "none"
  let risk_category := get_risk_category final_combined
  { final_flood_risk := final_flood
    final_heat_risk := final_heat
    final_combined_risk := roundq 2 final_combined
    flood_risk_delta_pct := flood_delta.delta_pct
    heat_risk_delta_pct := heat_delta.delta_pct
    confidence_score := confidence_score
    uncertainty_score := roundq 4 (1 - confidence_score)
    spillover_applied := spillover_applied
    spillover_sources := spillover_sources
    top_hazard := top_hazard
    risk_category := risk_category
    surge_alert := surge_alert
    critical_alert := critical_alert }

/-! ### `ResourceAllocator.calculate_need_score` (optimizer.py 73-111) -/

structure RiskWard where
  final_combined_risk : Option ℚ
  population : Option ℚ
  flood_risk_delta_pct : Option ℚ
  heat_risk_delta_pct : Option ℚ
deriving DecidableEq, Repr

/-- `ResourceAllocator.calculate_need_score` (optimizer.py 73-111).  The
dict lookups `ward_risk.get(k, d) or d` are modelled by `pyOr`. -/
def calculate_need_score (ward_risk : RiskWard) (use_delta : Bool) : ℚ :=
  let risk := pyOr ward_risk.final_combined_risk 0
  let population := pyOr ward_risk.population 100000
  let pop_normalized := min 1 (max 0 ((population - 50000) / 400000))
  let risk_weight := (risk / 100) ^ 2
  let base_need := risk_weight * (7/10 + (3/10) * pop_normalized) * 100
  if use_delta then
    let flood_delta := pyOr ward_risk.flood_risk_delta_pct 0
    let heat_delta := pyOr ward_risk.heat_risk_delta_pct 0
    let max_delta := max flood_delta heat_delta
    if 0 < max_delta then
      let risk_gate := min 1 (risk / 60)
      let boost :=
        if 40 < max_delta then 1 + (1/2) * risk_gate
        else if 20 < max_delta then 1 + (3/10) * risk_gate
        else 1 + (1/10) * risk_gate
      base_need * boost
    else base_need
  else base_need

/-! ### `ResourceAllocator.allocate_resource` and
`_adjust_for_effectiveness` (optimizer.py 113-172, 337-372)

A ward dict entering the allocator carries `ward_id`, `need_score`,
`risk_category` and (for the effectiveness adjustment) `top_hazard`,
`flood_risk`, `heat_risk`.  The Python code mutates per-ward dicts and
returns them in input order; the embedding indexes wards by position
(`List.enum`) to model object identity through the sort. -/

structure WardNeed where
  ward_id : Nat
  need_score : ℚ
  risk_category : String
  top_hazard : Option String
  flood_risk : Option ℚ
  heat_risk : Option ℚ
deriving DecidableEq, Repr

structure AllocEntry extends WardNeed where
  allocated : ℤ
deriving DecidableEq, Repr

/-- `w.get("risk_category") in ["critical", "high"]` (optimizer.py 134, 144). -/
def isCriticalCat (c : String) : Bool := c == "critical" || c == "high"

/-- `total_need = sum(w["need_score"] for w in wards_needs)` (optimizer.py 128). -/
def totalNeed (wards_needs : List WardNeed) : ℚ :=
  (wards_needs.map (fun w => w.need_score)).sum

/-- `len([w for w in wards_needs if w.get("risk_category") in ["critical",
"high"]])` (optimizer.py 134-135). -/
def criticalCount (wards_needs : List WardNeed) : ℕ :=
  (wards_needs.filter (fun w => isCriticalCat w.risk_category)).length

/-- the guaranteed units of one ward: `min_for_critical if is_critical else 0`
(optimizer.py 144-145). -/
def gUnits (min_for_critical : ℤ) (w : WardNeed) : ℤ :=
  if isCriticalCat w.risk_category then min_for_critical else 0

/-- `ideal = remaining * (need_score / total_need)` (optimizer.py 141-142). -/
def idealOf (remaining : ℤ) (total_need : ℚ) (w : WardNeed) : ℚ :=
  (remaining : ℚ) * (w.need_score / total_need)

/-- the ward's `floor` field: `math.floor(ideal) + guaranteed_units`
(optimizer.py 150). -/
def floorOf (remaining : ℤ) (total_need : ℚ) (min_for_critical : ℤ) (w : WardNeed) : ℤ :=
  ⌊idealOf remaining total_need w⌋ + gUnits min_for_critical w

/-- the ward's `remainder` field: `(ideal + guaranteed_units) -
math.floor(ideal) - guaranteed_units` (optimizer.py 151). -/
def remOf (remaining : ℤ) (total_need : ℚ) (min_for_critical : ℤ) (w : WardNeed) : ℚ :=
  (idealOf remaining total_need w + (gUnits min_for_critical w : ℚ)) -
    (⌊idealOf remaining total_need w⌋ : ℚ) - (gUnits min_for_critical w : ℚ)

/-- `remaining = max(0, total_available - guaranteed)` with `guaranteed =
len(critical_wards) * min_for_critical` (optimizer.py 135-136). -/
def remainingOf (wards_needs : List WardNeed) (total_available min_for_critical : ℤ) : ℤ :=
  max 0 (total_available - (criticalCount wards_needs : ℤ) * min_for_critical)

/-- `total_floor = sum(a["floor"] for a in allocations)` (optimizer.py 156). -/
def totalFloor (wards_needs : List WardNeed) (total_available min_for_critical : ℤ) : ℤ :=
  (wards_needs.map (floorOf (remainingOf wards_needs total_available min_for_critical)
    (totalNeed wards_needs) min_for_critical)).sum

/-- `leftover = total_available - total_floor` (optimizer.py 157). -/
def leftoverOf (wards_needs : List WardNeed) (total_available min_for_critical : ℤ) : ℤ :=
  total_available - totalFloor wards_needs total_available min_for_critical

/-- the per-ward `remainder` fields paired with each ward's position in the
input list (the position models Python dict-object identity through the
sort). -/
def indexedRems (wards_needs : List WardNeed) (total_available min_for_critical : ℤ) :
    List (Nat × ℚ) :=
  wards_needs.enum.map (fun iw => (iw.1,
    remOf (remainingOf wards_needs total_available min_for_critical)
      (totalNeed wards_needs) min_for_critical iw.2))

/-- the positions whose `floor` is incremented by the Largest Remainder
step (optimizer.py 159-162): `sorted(allocations, key=lambda x:
x["remainder"], reverse=True)` is a stable descending sort (embedded as
`insertionSort`), and the first `min(leftover, len(sorted_alloc))` entries
each get one extra unit. -/
def winnersOf (wards_needs : List WardNeed) (total_available min_for_critical : ℤ) :
    List Nat :=
  ((List.insertionSort (fun a b => b.2 ≤ a.2)
      (indexedRems wards_needs total_available min_for_critical)).take
    (min (leftoverOf wards_needs total_available min_for_critical)
      (wards_needs.length : ℤ)).toNat).map (fun p => p.1)

/-- `ResourceAllocator.allocate_resource` (optimizer.py 113-172):
proportional allocation with the critical-ward minimum and Largest
Remainder rounding, returning the (mutated) ward dicts in input order
with `allocated = max(0, floor)`. -/
def allocate_resource (wards_needs : List WardNeed) (total_available : ℤ)
    (min_for_critical : ℤ) : List AllocEntry :=
  if wards_needs = [] ∨ total_available ≤ 0 then []
  else if totalNeed wards_needs ≤ 0 then
    wards_needs.map (fun w => { toWardNeed := w, allocated := 0 })
  else
    wards_needs.enum.map (fun iw =>
      { toWardNeed := iw.2
        allocated := max 0
          (floorOf (remainingOf wards_needs total_available min_for_critical)
            (totalNeed wards_needs) min_for_critical iw.2 +
          (if iw.1 ∈ winnersOf wards_needs total_available min_for_critical then 1 else 0)) })

/-- `ResourceAllocator._adjust_for_effectiveness` (optimizer.py 337-372)
applied to one ward.  `effectiveness` is the resource's hazard→factor dict
(e.g. water pumps: flood 0.9, heat 0.0), modelled as an association list. -/
def adjustWard (effectiveness : List (String × ℚ)) (w : WardNeed) : WardNeed :=
  let top_hazard := w.top_hazard.getD "flood"
  match effectiveness.lookup top_hazard with
  | some eff => { w with need_score := w.need_score * eff }
  | none =>
    let flood_risk := pyOr w.flood_risk 0
    let heat_risk := pyOr w.heat_risk 0
    if flood_risk < heat_risk then
      { w with need_score := w.need_score * ((effectiveness.lookup "heat").getD 0) }
    else if heat_risk < flood_risk then
      { w with need_score := w.need_score * ((effectiveness.lookup "flood").getD 0) }
    else
      let flood_eff := (effectiveness.lookup "flood").getD (1/2)
      let heat_eff := (effectiveness.lookup "heat").getD (1/2)
      { w with need_score := w.need_score * ((flood_eff + heat_eff) / 2) }

/-- `ResourceAllocator._adjust_for_effectiveness` (optimizer.py 337-372). -/
def adjust_for_effectiveness (wards : List WardNeed) (effectiveness : List (String × ℚ)) :
    List WardNeed :=
  wards.map (adjustWard effectiveness)

/-! ## Theorems

### Arithmetic of the rounding model -/

theorem rhe_intCast (k : ℤ) : rhe (k : ℚ) = k := by
  simp [rhe]

theorem rhe_nonneg {x : ℚ} (hx : 0 ≤ x) : 0 ≤ rhe x := by
  have h0 : (0 : ℤ) ≤ ⌊x⌋ := Int.floor_nonneg.mpr hx
  unfold rhe
  dsimp only
  split
  · exact h0
  · split
    · omega
    · split <;> omega

theorem rhe_le_intCast {x : ℚ} {k : ℤ} (hx : x ≤ k) : rhe x ≤ k := by
  have hf : ⌊x⌋ ≤ k := by
    calc ⌊x⌋ ≤ ⌊(k : ℚ)⌋ := Int.floor_le_floor hx
    _ = k := Int.floor_intCast k
  unfold rhe
  dsimp only
  split
  · exact hf
  · have hlt : ⌊x⌋ < k := by
      by_contra hcon
      have hek : ⌊x⌋ = k := le_antisymm hf (by omega)
      have : x - ⌊x⌋ ≤ 0 := by
        rw [hek]
        linarith
      rename_i hr
      push_neg at hr
      linarith
    split
    · omega
    · split <;> omega

theorem roundq_nonneg {x : ℚ} (d : ℕ) (hx : 0 ≤ x) : 0 ≤ roundq d x := by
  unfold roundq
  have h1 : (0 : ℤ) ≤ rhe (x * 10 ^ d) := rhe_nonneg (by positivity)
  have h2 : (0 : ℚ) ≤ (rhe (x * 10 ^ d) : ℚ) := by exact_mod_cast h1
  positivity

theorem roundq_le_intCast {x : ℚ} {k : ℤ} (d : ℕ) (hx : x ≤ k) :
    roundq d x ≤ (k : ℚ) := by
  unfold roundq
  have h1 : rhe (x * 10 ^ d) ≤ k * 10 ^ d := by
    apply rhe_le_intCast
    push_cast
    have hp : (0 : ℚ) < 10 ^ d := by positivity
    exact mul_le_mul_of_nonneg_right hx (le_of_lt hp)
  have h2 : (rhe (x * 10 ^ d) : ℚ) ≤ ((k * 10 ^ d : ℤ) : ℚ) := by exact_mod_cast h1
  have hp : (0 : ℚ) < 10 ^ d := by positivity
  rw [div_le_iff₀ hp]
  push_cast at h2 ⊢
  linarith

theorem roundq_idem (d : ℕ) (x : ℚ) : roundq d (roundq d x) = roundq d x := by
  unfold roundq
  have hp : (10 : ℚ) ^ d ≠ 0 := by positivity
  rw [div_mul_cancel₀ _ hp, rhe_intCast]

/-- `roundq d x` is an integer multiple of `10 ^ (-d)`; rounding such a
value again is the identity. -/
theorem roundq_eq_self_of_num {v : ℚ} {k : ℤ} (d : ℕ) (hv : v = (k : ℚ) / 10 ^ d) :
    roundq d v = v := by
  subst hv
  unfold roundq
  have hp : (10 : ℚ) ^ d ≠ 0 := by positivity
  rw [div_mul_cancel₀ _ hp, rhe_intCast]

/-! ### Generic list lemmas used by the allocator proofs -/

theorem list_sum_map_add_int {α : Type _} (l : List α) (f g : α → ℤ) :
    (l.map (fun x => f x + g x)).sum = (l.map f).sum + (l.map g).sum := by
  induction l with
  | nil => simp
  | cons a t ih => simp [ih]; ring

theorem list_sum_map_sub_q {α : Type _} (l : List α) (f g : α → ℚ) :
    (l.map (fun x => f x - g x)).sum = (l.map f).sum - (l.map g).sum := by
  induction l with
  | nil => simp
  | cons a t ih => simp [ih]; ring

theorem list_sum_ite_mem (l : List ℕ) (S : List ℕ) :
    (l.map (fun i => if i ∈ S then (1 : ℤ) else 0)).sum =
      ((l.filter (fun i => decide (i ∈ S))).length : ℤ) := by
  induction l with
  | nil => simp
  | cons a t ih =>
    by_cases h : a ∈ S
    · simp [List.filter_cons, h, ih]
      ring
    · simp [List.filter_cons, h, ih]

theorem list_filter_mem_perm {l S : List ℕ} (hl : l.Nodup) (hS : S.Nodup)
    (hsub : ∀ x ∈ S, x ∈ l) :
    (l.filter (fun i => decide (i ∈ S))).Perm S := by
  rw [List.perm_ext_iff_of_nodup (hl.filter _) hS]
  intro a
  simp only [List.mem_filter, decide_eq_true_eq]
  constructor
  · exact fun h => h.2
  · exact fun h => ⟨hsub a h, h⟩

theorem list_sum_le_countP (l : List ℚ) (h : ∀ x ∈ l, 0 ≤ x ∧ x < 1) :
    l.sum ≤ (l.countP (fun x => decide (0 < x)) : ℚ) := by
  induction l with
  | nil => simp
  | cons a t ih =>
    have ha := h a (by simp)
    have ht : ∀ x ∈ t, 0 ≤ x ∧ x < 1 := fun x hx => h x (by simp [hx])
    have iht := ih ht
    by_cases hpos : 0 < a
    · rw [List.countP_cons_of_pos _ _ (by simpa using hpos)]
      push_cast
      simp only [List.sum_cons]
      linarith [ha.2]
    · have ha0 : a = 0 := le_antisymm (not_lt.mp hpos) ha.1
      rw [List.countP_cons_of_neg _ _ (by simpa using hpos)]
      simp [ha0]
      linarith

theorem sorted_take_pos {l : List (ℕ × ℚ)} {k : ℕ}
    (hs : List.Sorted (fun a b : ℕ × ℚ => b.2 ≤ a.2) l)
    (hnn : ∀ x ∈ l, 0 ≤ x.2)
    (hk : k ≤ l.countP (fun x => decide (0 < x.2))) :
    ∀ x ∈ l.take k, 0 < x.2 := by
  induction l generalizing k with
  | nil => simp
  | cons a t ih =>
    cases k with
    | zero => simp
    | succ k =>
      have hsa := (List.sorted_cons.mp hs).1
      have hst := (List.sorted_cons.mp hs).2
      by_cases hpos : 0 < a.2
      · intro x hx
        rw [List.take_succ_cons] at hx
        rcases List.mem_cons.mp hx with hxa | hxt
        · rw [hxa]; exact hpos
        · have hcnt : k ≤ t.countP (fun x => decide (0 < x.2)) := by
            rw [List.countP_cons_of_pos _ _ (by simpa using hpos)] at hk
            omega
          exact ih hst (fun y hy => hnn y (by simp [hy])) hcnt x hxt
      · exfalso
        have ha0 : a.2 = 0 := le_antisymm (not_lt.mp hpos) (hnn a (by simp))
        have hct : t.countP (fun x => decide (0 < x.2)) = 0 := by
          rw [List.countP_eq_zero]
          intro x hx
          have := hsa x hx
          have hx0 : x.2 = 0 := le_antisymm (ha0 ▸ this) (hnn x (by simp [hx]))
          simp [hx0]
        rw [List.countP_cons_of_neg _ _ (by simpa using hpos), hct] at hk
        omega

/-! ### Anatomy of `allocate_resource` -/

theorem sum_gUnits (minc : ℤ) (wards : List WardNeed) :
    (wards.map (gUnits minc)).sum = (criticalCount wards : ℤ) * minc := by
  induction wards with
  | nil => simp [criticalCount]
  | cons a t ih =>
    simp only [List.map_cons, List.sum_cons, ih, criticalCount, gUnits, List.filter_cons]
    by_cases h : isCriticalCat a.risk_category
    · simp only [h, if_pos, List.length_cons]
      push_cast
      ring
    · simp only [h, Bool.false_eq_true, if_false]
      ring

theorem remOf_eq_fract (remaining : ℤ) (N : ℚ) (minc : ℤ) (w : WardNeed) :
    remOf remaining N minc w = Int.fract (idealOf remaining N w) := by
  unfold remOf
  rw [← Int.self_sub_floor]
  ring

theorem sum_idealOf (remaining : ℤ) {wards : List WardNeed} {N : ℚ}
    (hN : totalNeed wards = N) (h0 : N ≠ 0) :
    (wards.map (idealOf remaining N)).sum = (remaining : ℚ) := by
  unfold idealOf
  rw [List.sum_map_mul_left]
  have h1 : (wards.map fun w => w.need_score / N).sum = 1 := by
    simp only [div_eq_mul_inv]
    rw [List.sum_map_mul_right]
    unfold totalNeed at hN
    rw [hN, mul_inv_cancel₀ h0]
  rw [h1, mul_one]

theorem sum_floorOf (remaining : ℤ) (N : ℚ) (minc : ℤ) (wards : List WardNeed) :
    (wards.map (floorOf remaining N minc)).sum =
      (wards.map (fun w => ⌊idealOf remaining N w⌋)).sum +
        (criticalCount wards : ℤ) * minc := by
  unfold floorOf
  rw [list_sum_map_add_int, sum_gUnits]

/-- When the guarantee pool fits inside the total, the leftover of the
Largest Remainder step is exactly the sum of the fractional remainders. -/
theorem leftover_eq_sum_fract {wards : List WardNeed} {total minc : ℤ}
    (hN : ¬ totalNeed wards ≤ 0)
    (hg : (criticalCount wards : ℤ) * minc ≤ total) :
    ((leftoverOf wards total minc : ℤ) : ℚ) =
      ((wards.map (fun w => Int.fract (idealOf (remainingOf wards total minc)
        (totalNeed wards) w))).sum) := by
  have h0 : totalNeed wards ≠ 0 := fun h => hN (le_of_eq h)
  have hrem : remainingOf wards total minc = total - (criticalCount wards : ℤ) * minc := by
    unfold remainingOf
    omega
  unfold leftoverOf totalFloor
  rw [sum_floorOf]
  push_cast
  have hfr : (wards.map (fun w => Int.fract (idealOf (remainingOf wards total minc)
      (totalNeed wards) w))).sum =
      (wards.map (fun w => idealOf (remainingOf wards total minc) (totalNeed wards) w -
        (⌊idealOf (remainingOf wards total minc) (totalNeed wards) w⌋ : ℚ))).sum := by
    simp only [Int.self_sub_floor]
  rw [hfr, list_sum_map_sub_q, sum_idealOf _ rfl h0]
  have hcast : ((wards.map (fun w => ⌊idealOf (remainingOf wards total minc)
      (totalNeed wards) w⌋)).sum : ℚ) =
      (wards.map (fun w => (⌊idealOf (remainingOf wards total minc)
        (totalNeed wards) w⌋ : ℚ))).sum := by
    push_cast
    rw [List.map_map]
    rfl
  rw [← hcast, hrem]
  push_cast
  ring

/-- All `remainder` fields are in `[0, 1)`. -/
theorem remOf_mem_Ico (remaining : ℤ) (N : ℚ) (minc : ℤ) (w : WardNeed) :
    0 ≤ remOf remaining N minc w ∧ remOf remaining N minc w < 1 := by
  rw [remOf_eq_fract]
  exact ⟨Int.fract_nonneg _, Int.fract_lt_one _⟩

/-- The leftover is nonnegative and bounded by the number of wards when the
guarantee pool fits inside the total. -/
theorem leftover_bounds {wards : List WardNeed} {total minc : ℤ}
    (hN : ¬ totalNeed wards ≤ 0)
    (hg : (criticalCount wards : ℤ) * minc ≤ total) :
    0 ≤ leftoverOf wards total minc ∧
      leftoverOf wards total minc ≤
        ((wards.map (remOf (remainingOf wards total minc) (totalNeed wards) minc)).countP
          (fun x => decide (0 < x)) : ℤ) := by
  have hsum := leftover_eq_sum_fract hN hg
  have hmap : (wards.map (remOf (remainingOf wards total minc) (totalNeed wards) minc)) =
      (wards.map (fun w => Int.fract (idealOf (remainingOf wards total minc)
        (totalNeed wards) w))) := by
    apply List.map_congr_left
    intro w _
    exact remOf_eq_fract _ _ _ _
  constructor
  · have hnn : (0 : ℚ) ≤ ((leftoverOf wards total minc : ℤ) : ℚ) := by
      rw [hsum]
      apply List.sum_nonneg
      intro x hx
      rcases List.mem_map.mp hx with ⟨w, _, rfl⟩
      exact Int.fract_nonneg _
    exact_mod_cast hnn
  · have hle : ((leftoverOf wards total minc : ℤ) : ℚ) ≤
        ((wards.map (remOf (remainingOf wards total minc) (totalNeed wards) minc)).countP
          (fun x => decide (0 < x)) : ℚ) := by
      rw [hsum, ← hmap]
      apply list_sum_le_countP
      intro x hx
      rcases List.mem_map.mp hx with ⟨w, _, rfl⟩
      exact remOf_mem_Ico _ _ _ _
    exact_mod_cast hle

theorem indexedRems_map_fst (wards : List WardNeed) (total minc : ℤ) :
    (indexedRems wards total minc).map Prod.fst = List.range wards.length := by
  unfold indexedRems
  rw [List.map_map]
  exact List.enum_map_fst wards

theorem indexedRems_map_snd (wards : List WardNeed) (total minc : ℤ) :
    (indexedRems wards total minc).map Prod.snd =
      wards.map (remOf (remainingOf wards total minc) (totalNeed wards) minc) := by
  unfold indexedRems
  rw [List.map_map]
  have h : (Prod.snd ∘ fun iw : ℕ × WardNeed => (iw.1,
      remOf (remainingOf wards total minc) (totalNeed wards) minc iw.2)) =
      (remOf (remainingOf wards total minc) (totalNeed wards) minc) ∘ Prod.snd := rfl
  rw [h, ← List.map_map]
  rw [List.enum_map_snd]

theorem mem_indexedRems {wards : List WardNeed} {total minc : ℤ} {p : ℕ × ℚ}
    (hp : p ∈ indexedRems wards total minc) :
    ∃ w, wards.get? p.1 = some w ∧
      p.2 = remOf (remainingOf wards total minc) (totalNeed wards) minc w := by
  unfold indexedRems at hp
  rcases List.mem_map.mp hp with ⟨q, hq, hpq⟩
  refine ⟨q.2, ?_, ?_⟩
  · have h1 : q.1 = p.1 := by rw [← hpq]
    rw [← h1]
    exact List.mem_enum_iff_get?.mp hq
  · rw [← hpq]

/-- the sorted remainder list is a permutation of the indexed remainders. -/
theorem sorted_perm_indexedRems (wards : List WardNeed) (total minc : ℤ) :
    (List.insertionSort (fun a b : ℕ × ℚ => b.2 ≤ a.2)
      (indexedRems wards total minc)).Perm (indexedRems wards total minc) :=
  List.perm_insertionSort _ _

theorem winnersOf_nodup (wards : List WardNeed) (total minc : ℤ) :
    (winnersOf wards total minc).Nodup := by
  unfold winnersOf
  rw [List.map_take]
  apply List.Nodup.sublist (List.take_sublist _ _)
  have hperm : ((List.insertionSort (fun a b : ℕ × ℚ => b.2 ≤ a.2)
      (indexedRems wards total minc)).map Prod.fst).Perm
      ((indexedRems wards total minc).map Prod.fst) :=
    (sorted_perm_indexedRems wards total minc).map Prod.fst
  rw [indexedRems_map_fst] at hperm
  exact hperm.nodup_iff.mpr (List.nodup_range _)

theorem winnersOf_mem_lt {wards : List WardNeed} {total minc : ℤ} {i : ℕ}
    (hi : i ∈ winnersOf wards total minc) : i < wards.length := by
  unfold winnersOf at hi
  rw [List.map_take] at hi
  have h1 : i ∈ ((List.insertionSort (fun a b : ℕ × ℚ => b.2 ≤ a.2)
      (indexedRems wards total minc)).map Prod.fst) :=
    List.mem_of_mem_take hi
  have hperm : ((List.insertionSort (fun a b : ℕ × ℚ => b.2 ≤ a.2)
      (indexedRems wards total minc)).map Prod.fst).Perm (List.range wards.length) := by
    have := (sorted_perm_indexedRems wards total minc).map Prod.fst
    rwa [indexedRems_map_fst] at this
  exact List.mem_range.mp (hperm.mem_iff.mp h1)

theorem winnersOf_length {wards : List WardNeed} {total minc : ℤ}
    (hN : ¬ totalNeed wards ≤ 0)
    (hg : (criticalCount wards : ℤ) * minc ≤ total) :
    ((winnersOf wards total minc).length : ℤ) = leftoverOf wards total minc := by
  obtain ⟨h0, hle⟩ := leftover_bounds hN hg
  have hcle : ((wards.map (remOf (remainingOf wards total minc) (totalNeed wards) minc)).countP
      (fun x => decide (0 < x)) : ℤ) ≤ (wards.length : ℤ) := by
    have := List.countP_le_length (l := wards.map (remOf (remainingOf wards total minc)
      (totalNeed wards) minc)) (p := fun x => decide (0 < x))
    rw [List.length_map] at this
    exact_mod_cast this
  have hln : leftoverOf wards total minc ≤ (wards.length : ℤ) := le_trans hle hcle
  have hmin : min (leftoverOf wards total minc) (wards.length : ℤ) =
      leftoverOf wards total minc := min_eq_left hln
  unfold winnersOf
  rw [List.length_map, List.length_take, hmin, List.length_insertionSort]
  unfold indexedRems
  rw [List.length_map, List.enum_length]
  have htn : ((leftoverOf wards total minc).toNat : ℤ) = leftoverOf wards total minc :=
    Int.toNat_of_nonneg h0
  have : (leftoverOf wards total minc).toNat ≤ wards.length := by omega
  rw [min_eq_left this]
  omega

/-- Every position that receives a Largest-Remainder extra unit has a
strictly positive remainder. -/
theorem winnersOf_pos_rem {wards : List WardNeed} {total minc : ℤ} {i : ℕ} {w : WardNeed}
    (hN : ¬ totalNeed wards ≤ 0)
    (hi : i ∈ winnersOf wards total minc)
    (hw : wards.get? i = some w) :
    0 < remOf (remainingOf wards total minc) (totalNeed wards) minc w := by
  unfold winnersOf at hi
  rcases List.mem_map.mp hi with ⟨p, hp, hpi⟩
  -- k ≤ number of positive remainders
  have hcount : (min (leftoverOf wards total minc) (wards.length : ℤ)).toNat ≤
      (List.insertionSort (fun a b : ℕ × ℚ => b.2 ≤ a.2)
        (indexedRems wards total minc)).countP (fun x => decide (0 < x.2)) := by
    have hcp : (List.insertionSort (fun a b : ℕ × ℚ => b.2 ≤ a.2)
        (indexedRems wards total minc)).countP (fun x => decide (0 < x.2)) =
        (wards.map (remOf (remainingOf wards total minc) (totalNeed wards) minc)).countP
          (fun x => decide (0 < x)) := by
      rw [(sorted_perm_indexedRems wards total minc).countP_eq]
      rw [← indexedRems_map_snd wards total minc, List.countP_map]
      rfl
    rw [hcp]
    by_cases hg : (criticalCount wards : ℤ) * minc ≤ total
    · obtain ⟨h0, hle⟩ := leftover_bounds hN hg
      have h1 : min (leftoverOf wards total minc) (wards.length : ℤ) ≤
          leftoverOf wards total minc := min_le_left _ _
      omega
    · -- guarantee pool exceeds the total: remaining = 0, every ideal is 0,
      -- leftover is negative, nobody wins an extra unit
      have hrem0 : remainingOf wards total minc = 0 := by
        unfold remainingOf
        omega
      have hfl : totalFloor wards total minc = (criticalCount wards : ℤ) * minc := by
        unfold totalFloor
        rw [sum_floorOf]
        have hz : (wards.map fun w => ⌊idealOf (remainingOf wards total minc)
            (totalNeed wards) w⌋).sum = 0 := by
          have hzz : (wards.map fun w => ⌊idealOf (remainingOf wards total minc)
              (totalNeed wards) w⌋) = wards.map (fun _ => (0 : ℤ)) := by
            apply List.map_congr_left
            intro x _
            unfold idealOf
            rw [hrem0]
            norm_num
          rw [hzz]
          simp
        rw [hz]
        ring
      have hlt : leftoverOf wards total minc < 0 := by
        unfold leftoverOf
        rw [hfl]
        omega
      have : min (leftoverOf wards total minc) (wards.length : ℤ) < 0 :=
        lt_of_le_of_lt (min_le_left _ _) hlt
      omega
  -- sortedness of the insertion sort
  have hsorted : List.Sorted (fun a b : ℕ × ℚ => b.2 ≤ a.2)
      (List.insertionSort (fun a b : ℕ × ℚ => b.2 ≤ a.2)
        (indexedRems wards total minc)) := by
    haveI : IsTotal (ℕ × ℚ) (fun a b : ℕ × ℚ => b.2 ≤ a.2) := ⟨fun a b => le_total b.2 a.2⟩
    haveI : IsTrans (ℕ × ℚ) (fun a b : ℕ × ℚ => b.2 ≤ a.2) :=
      ⟨fun _ _ _ h1 h2 => le_trans h2 h1⟩
    exact List.sorted_insertionSort _ _
  have hnn : ∀ x ∈ List.insertionSort (fun a b : ℕ × ℚ => b.2 ≤ a.2)
      (indexedRems wards total minc), 0 ≤ x.2 := by
    intro x hx
    have hx2 : x ∈ indexedRems wards total minc :=
      (sorted_perm_indexedRems wards total minc).mem_iff.mp hx
    rcases mem_indexedRems hx2 with ⟨w2, _, hw2⟩
    rw [hw2]
    exact (remOf_mem_Ico _ _ _ _).1
  have hppos : 0 < p.2 := sorted_take_pos hsorted hnn hcount p hp
  -- identify p with (i, remOf w)
  have hpmem : p ∈ indexedRems wards total minc :=
    (sorted_perm_indexedRems wards total minc).mem_iff.mp (List.mem_of_mem_take hp)
  rcases mem_indexedRems hpmem with ⟨w2, hw2get, hw2rem⟩
  rw [hpi] at hw2get
  rw [hw2get] at hw
  have hww : w2 = w := by injection hw
  rw [hww] at hw2rem
  rw [← hw2rem]
  exact hppos

theorem allocate_resource_of_pos {wards : List WardNeed} {total minc : ℤ}
    (hw : wards ≠ []) (ht : 0 < total) (hN : ¬ totalNeed wards ≤ 0) :
    allocate_resource wards total minc =
      wards.enum.map (fun iw =>
        { toWardNeed := iw.2
          allocated := max 0 (floorOf (remainingOf wards total minc)
            (totalNeed wards) minc iw.2 +
            (if iw.1 ∈ winnersOf wards total minc then 1 else 0)) }) := by
  unfold allocate_resource
  rw [if_neg (by push_neg; exact ⟨hw, by omega⟩), if_neg hN]

theorem allocate_resource_of_zero_need {wards : List WardNeed} {total minc : ℤ}
    (hw : wards ≠ []) (ht : 0 < total) (hN : totalNeed wards ≤ 0) :
    allocate_resource wards total minc =
      wards.map (fun w => { toWardNeed := w, allocated := 0 }) := by
  unfold allocate_resource
  rw [if_neg (by push_neg; exact ⟨hw, by omega⟩), if_pos hN]

/-- In the main branch with non-negative needs and a non-negative critical
minimum, every `floor` field is non-negative. -/
theorem floorOf_nonneg {wards : List WardNeed} {total minc : ℤ} {w : WardNeed}
    (hm : 0 ≤ minc) (hN : ¬ totalNeed wards ≤ 0) (hwn : 0 ≤ w.need_score) :
    0 ≤ floorOf (remainingOf wards total minc) (totalNeed wards) minc w := by
  have hNpos : 0 < totalNeed wards := by
    push_neg at hN
    exact hN
  have hrem : (0 : ℤ) ≤ remainingOf wards total minc := le_max_left _ _
  have hideal : 0 ≤ idealOf (remainingOf wards total minc) (totalNeed wards) w := by
    unfold idealOf
    have h1 : (0 : ℚ) ≤ (remainingOf wards total minc : ℤ) := by exact_mod_cast hrem
    have h2 : (0 : ℚ) ≤ w.need_score / totalNeed wards := div_nonneg hwn (le_of_lt hNpos)
    exact mul_nonneg h1 h2
  unfold floorOf gUnits
  have h3 : (0 : ℤ) ≤ ⌊idealOf (remainingOf wards total minc) (totalNeed wards) w⌋ :=
    Int.floor_nonneg.mpr hideal
  split <;> omega

/-- **C1** (amended).  For a non-empty ward list with non-negative need
scores, `0 < total_units`, `0 ≤ min_for_critical`, **and a guarantee pool
that fits inside the total** (`count(critical/high) × min_for_critical ≤
total_units`): if the sum of need scores is positive then the allocated
units sum to exactly `total_units`; if the sum of need scores is zero,
every ward is allocated 0.  (The claim's original "including when the
guarantee count times min_for_critical exceeds total_units" is false —
see the counterexample — which forces the extra hypothesis.) -/
theorem c1_allocation_conserves_total (wards : List WardNeed) (total minc : ℤ)
    (hw : wards ≠ []) (ht : 0 < total) (hm : 0 ≤ minc)
    (hn : ∀ w ∈ wards, 0 ≤ w.need_score)
    (hg : (criticalCount wards : ℤ) * minc ≤ total) :
    (0 < totalNeed wards →
      ((allocate_resource wards total minc).map (fun e => e.allocated)).sum = total) ∧
    (totalNeed wards = 0 →
      ∀ e ∈ allocate_resource wards total minc, e.allocated = 0) := by
  constructor
  · intro hpos
    have hN : ¬ totalNeed wards ≤ 0 := by linarith
    rw [allocate_resource_of_pos hw ht hN]
    rw [List.map_map]
    have hcongr : (wards.enum.map ((fun e : AllocEntry => e.allocated) ∘ (fun iw =>
        ({ toWardNeed := iw.2
           allocated := max 0 (floorOf (remainingOf wards total minc)
             (totalNeed wards) minc iw.2 +
             (if iw.1 ∈ winnersOf wards total minc then 1 else 0)) } : AllocEntry)))) =
        wards.enum.map (fun iw =>
          floorOf (remainingOf wards total minc) (totalNeed wards) minc iw.2 +
            (if iw.1 ∈ winnersOf wards total minc then 1 else 0)) := by
      apply List.map_congr_left
      intro iw hiw
      have hwmem : iw.2 ∈ wards := by
        have hget := List.mem_enum_iff_get?.mp hiw
        exact List.get?_mem hget
      have hfl : 0 ≤ floorOf (remainingOf wards total minc) (totalNeed wards) minc iw.2 :=
        floorOf_nonneg hm hN (hn _ hwmem)
      have hind : (0 : ℤ) ≤ (if iw.1 ∈ winnersOf wards total minc then 1 else 0) := by
        split <;> omega
      simp only [Function.comp]
      omega
    rw [hcongr, list_sum_map_add_int]
    -- the floor part sums to totalFloor
    have hfsum : (wards.enum.map (fun iw =>
        floorOf (remainingOf wards total minc) (totalNeed wards) minc iw.2)).sum =
        totalFloor wards total minc := by
      unfold totalFloor
      have : wards.enum.map (fun iw =>
          floorOf (remainingOf wards total minc) (totalNeed wards) minc iw.2) =
          (wards.enum.map Prod.snd).map
            (floorOf (remainingOf wards total minc) (totalNeed wards) minc) := by
        rw [List.map_map]
        rfl
      rw [this, List.enum_map_snd]
    -- the indicator part sums to the leftover
    have hisum : (wards.enum.map (fun iw =>
        if iw.1 ∈ winnersOf wards total minc then (1 : ℤ) else 0)).sum =
        leftoverOf wards total minc := by
      have h1 : wards.enum.map (fun iw =>
          if iw.1 ∈ winnersOf wards total minc then (1 : ℤ) else 0) =
          (wards.enum.map Prod.fst).map
            (fun i => if i ∈ winnersOf wards total minc then (1 : ℤ) else 0) := by
        rw [List.map_map]
        rfl
      rw [h1, List.enum_map_fst, list_sum_ite_mem]
      have hperm : ((List.range wards.length).filter
          (fun i => decide (i ∈ winnersOf wards total minc))).Perm
          (winnersOf wards total minc) :=
        list_filter_mem_perm (List.nodup_range _) (winnersOf_nodup wards total minc)
          (fun x hx => List.mem_range.mpr (winnersOf_mem_lt hx))
      rw [hperm.length_eq]
      exact winnersOf_length hN hg
    rw [hfsum, hisum]
    unfold leftoverOf
    ring
  · intro h0 e he
    rw [allocate_resource_of_zero_need hw ht (le_of_eq h0)] at he
    rcases List.mem_map.mp he with ⟨w, _, rfl⟩
    rfl

/-- Witness for C1 at a concrete input: two wards (one critical) with
needs 3 and 1, 10 units, critical minimum 2 — the allocation sums to 10. -/
theorem c1_allocation_conserves_total_witness :
    ((allocate_resource [⟨0, 3, "critical", none, none, none⟩,
      ⟨1, 1, "low", none, none, none⟩] 10 2).map (fun e => e.allocated)).sum = 10 := by
  have h := c1_allocation_conserves_total
    [⟨0, 3, "critical", none, none, none⟩, ⟨1, 1, "low", none, none, none⟩] 10 2
    (by simp) (by norm_num) (by norm_num)
    (by
      intro w hw
      rcases List.mem_cons.mp hw with rfl | hw2
      · norm_num
      rcases List.mem_cons.mp hw2 with rfl | hw3
      · norm_num
      · simp at hw3)
    (by decide)
  exact h.1 (by norm_num [totalNeed])

/-- Counterexample to C1 as stated: a single critical ward with positive
need, `total_units = 1 > 0`, `min_for_critical = 2`.  The guarantee pool
(1 × 2 = 2) exceeds the total, and the code hands out the guaranteed
minimum anyway: the allocation sums to 2 ≠ 1 = total_units. -/
theorem c1_counterexample :
    ((allocate_resource [⟨0, 1, "critical", none, none, none⟩] 1 2).map
      (fun e => e.allocated)).sum = 2 ∧ (2 : ℤ) ≠ 1 := by
  constructor
  · norm_num [allocate_resource, totalNeed, criticalCount, isCriticalCat, winnersOf,
      leftoverOf, totalFloor, remainingOf, indexedRems, floorOf, remOf, idealOf, gUnits,
      List.insertionSort, List.orderedInsert, List.enum, List.enumFrom, List.filter]
    decide
  · decide

/-- Every final allocation is clamped non-negative (`max(0, floor)`,
optimizer.py 166). -/
theorem allocated_nonneg (wards : List WardNeed) (total minc : ℤ) :
    ∀ e ∈ allocate_resource wards total minc, 0 ≤ e.allocated := by
  intro e he
  unfold allocate_resource at he
  split at he
  · simp at he
  · split at he
    · rcases List.mem_map.mp he with ⟨w, _, rfl⟩
      exact le_refl _
    · rcases List.mem_map.mp he with ⟨iw, _, rfl⟩
      exact le_max_left _ _

/-- **C2** (amended).  When the adjusted need scores are non-negative with
a **positive sum**, at least one ward is critical/high,
`0 ≤ min_for_critical` and `total_units ≥ count(critical/high) ×
min_for_critical`, every critical/high ward receives at least
`min(min_for_critical, total_units)`.  (The claim's "including when the
sum of adjusted need scores is 0" is false — the code then allocates 0 to
every ward, including critical ones — see the counterexample; this forces
the positive-sum hypothesis.) -/
theorem c2_critical_minimum (wards : List WardNeed) (total minc : ℤ)
    (hm : 0 ≤ minc) (hn : ∀ w ∈ wards, 0 ≤ w.need_score)
    (hpos : 0 < totalNeed wards)
    (hcc : 0 < criticalCount wards)
    (hg : (criticalCount wards : ℤ) * minc ≤ total) :
    ∀ i w e, wards.get? i = some w → isCriticalCat w.risk_category = true →
      (allocate_resource wards total minc).get? i = some e →
      min minc total ≤ e.allocated := by
  intro i w e hget hcrit he
  have hmt : minc ≤ total := by
    have h1 : minc * 1 ≤ minc * (criticalCount wards : ℤ) := by
      apply mul_le_mul_of_nonneg_left _ hm
      exact_mod_cast hcc
    calc minc = minc * 1 := by ring
    _ ≤ minc * (criticalCount wards : ℤ) := h1
    _ = (criticalCount wards : ℤ) * minc := by ring
    _ ≤ total := hg
  have hmin : min minc total = minc := min_eq_left hmt
  by_cases htot : total ≤ 0
  · exfalso
    have : allocate_resource wards total minc = [] := by
      unfold allocate_resource
      rw [if_pos (Or.inr htot)]
    rw [this] at he
    simp at he
  · have ht : 0 < total := by omega
    have hwne : wards ≠ [] := by
      intro hnil
      rw [hnil] at hget
      simp at hget
    have hN : ¬ totalNeed wards ≤ 0 := by linarith
    rw [allocate_resource_of_pos hwne ht hN] at he
    rw [List.get?_map, List.get?_enum, hget] at he
    simp only [Option.map_some'] at he
    have he2 : e.allocated = max 0 (floorOf (remainingOf wards total minc)
        (totalNeed wards) minc w +
        (if i ∈ winnersOf wards total minc then 1 else 0)) := by
      injection he with he3
      rw [← he3]
    have hwm : w ∈ wards := List.get?_mem hget
    have hideal : 0 ≤ idealOf (remainingOf wards total minc) (totalNeed wards) w := by
      unfold idealOf
      have h1 : (0 : ℤ) ≤ remainingOf wards total minc := le_max_left _ _
      have h2 : (0 : ℚ) ≤ (remainingOf wards total minc : ℤ) := by exact_mod_cast h1
      exact mul_nonneg h2 (div_nonneg (hn w hwm) (le_of_lt hpos))
    have hfl : minc ≤ floorOf (remainingOf wards total minc) (totalNeed wards) minc w := by
      unfold floorOf gUnits
      rw [if_pos hcrit]
      have := Int.floor_nonneg.mpr hideal
      omega
    have hind : (0 : ℤ) ≤ (if i ∈ winnersOf wards total minc then 1 else 0) := by
      split <;> omega
    rw [he2, hmin]
    have : minc ≤ floorOf (remainingOf wards total minc) (totalNeed wards) minc w +
        (if i ∈ winnersOf wards total minc then 1 else 0) := by omega
    omega

set_option maxHeartbeats 1000000 in
/-- Witness for C2: one critical ward with need 2, 10 units, minimum 2 —
its entry gets all 10 units, and 10 ≥ min(2, 10). -/
theorem c2_critical_minimum_witness :
    min (2 : ℤ) 10 ≤ (⟨⟨0, 2, "critical", none, none, none⟩, 10⟩ : AllocEntry).allocated := by
  apply c2_critical_minimum [⟨0, 2, "critical", none, none, none⟩] 10 2
    (by norm_num)
    (by
      intro w hw
      rcases List.mem_cons.mp hw with rfl | hw2
      · norm_num
      · simp at hw2)
    (by norm_num [totalNeed]) (by decide) (by decide)
    0 ⟨0, 2, "critical", none, none, none⟩ _ rfl (by decide)
  norm_num [allocate_resource, totalNeed, criticalCount, isCriticalCat, winnersOf,
    leftoverOf, totalFloor, remainingOf, indexedRems, floorOf, remOf, idealOf, gUnits,
    List.insertionSort, List.orderedInsert, List.enum, List.enumFrom]

/-- Counterexample to C2 as stated: one critical ward whose (adjusted)
need score is 0, `total_units = 5 ≥ 1 × 2`.  The sum of adjusted needs is
0, so the code allocates 0 — below `min(min_for_critical, total_units) = 2`. -/
theorem c2_counterexample :
    allocate_resource [⟨0, 0, "critical", none, none, none⟩] 5 2 =
      [⟨⟨0, 0, "critical", none, none, none⟩, 0⟩] ∧ ¬ (min (2 : ℤ) 5 ≤ 0) := by
  constructor
  · norm_num [allocate_resource, totalNeed]
  · decide

/-- **C7** (amended).  `allocate_resource` does not fail fast on negative
need scores: it is a total function that silently clamps each final
allocation to ≥ 0 (`max(0, floor)`), and for `total_units ≤ 0` it returns
the empty allocation. -/
theorem c7_no_fail_fast (wards : List WardNeed) (total minc : ℤ) :
    (total ≤ 0 → allocate_resource wards total minc = []) ∧
    (∀ e ∈ allocate_resource wards total minc, 0 ≤ e.allocated) := by
  constructor
  · intro ht
    unfold allocate_resource
    rw [if_pos (Or.inr ht)]
  · exact allocated_nonneg wards total minc

/-- Witness for C7: with 0 total units the allocation is empty. -/
theorem c7_no_fail_fast_witness :
    allocate_resource [⟨0, 1, "low", none, none, none⟩] 0 1 = [] :=
  (c7_no_fail_fast [⟨0, 1, "low", none, none, none⟩] 0 1).1 (by norm_num)

/-- Counterexample to C7 as stated: on an input containing a negative need
score the code raises no error and silently returns an ordinary
allocation (here: the single ward, allocated 0). -/
theorem c7_counterexample :
    allocate_resource [⟨0, -1, "low", none, none, none⟩] 5 1 =
      [⟨⟨0, -1, "low", none, none, none⟩, 0⟩] := by
  norm_num [allocate_resource, totalNeed]

/-- **C10** (amended).  For every ward list and every `total_units > 0`,
`allocate_resource` returns exactly one entry per input ward, in input
order (each entry carrying its ward's fields unchanged), and every
`allocated` value is a non-negative integer.  (For `total_units ≤ 0` the
function instead returns the empty list — see the counterexample — which
forces the `total_units > 0` hypothesis.) -/
theorem c10_shape (wards : List WardNeed) (total minc : ℤ) (ht : 0 < total) :
    (allocate_resource wards total minc).map (fun e => e.toWardNeed) = wards ∧
    (∀ e ∈ allocate_resource wards total minc, 0 ≤ e.allocated) := by
  refine ⟨?_, allocated_nonneg wards total minc⟩
  by_cases hw : wards = []
  · subst hw
    unfold allocate_resource
    rw [if_pos (Or.inl rfl)]
    rfl
  · by_cases hN : totalNeed wards ≤ 0
    · rw [allocate_resource_of_zero_need hw ht hN, List.map_map]
      have : ((fun e : AllocEntry => e.toWardNeed) ∘
          (fun w => ({ toWardNeed := w, allocated := 0 } : AllocEntry))) = id := rfl
      rw [this, List.map_id]
    · rw [allocate_resource_of_pos hw ht hN, List.map_map]
      have : ((fun e : AllocEntry => e.toWardNeed) ∘ (fun iw : ℕ × WardNeed =>
          ({ toWardNeed := iw.2
             allocated := max 0 (floorOf (remainingOf wards total minc)
               (totalNeed wards) minc iw.2 +
               (if iw.1 ∈ winnersOf wards total minc then 1 else 0)) } : AllocEntry))) =
          Prod.snd := rfl
      rw [this, List.enum_map_snd]

/-- Witness for C10 at a concrete input. -/
theorem c10_shape_witness :
    (allocate_resource [⟨0, 1, "low", none, none, none⟩] 3 1).map (fun e => e.toWardNeed) =
      [⟨0, 1, "low", none, none, none⟩] :=
  (c10_shape [⟨0, 1, "low", none, none, none⟩] 3 1 (by norm_num)).1

/-- Counterexample to C10 as stated: with `total_units = 0` and one input
ward the function returns the empty list — not one entry per ward. -/
theorem c10_counterexample :
    (allocate_resource [⟨0, 1, "low", none, none, none⟩] 0 1).length = 0 ∧ (0 : ℕ) ≠ 1 := by
  constructor
  · norm_num [allocate_resource]
  · decide

/-- **C3** (amended).  A ward whose dominant hazard has effectiveness `0`
in the resource's effectiveness map gets adjusted need `0`, and — provided
its `risk_category` is **not** critical/high — is allocated 0 units by the
pipeline.  (The claim's "regardless of its risk_category" is false: a
critical/high ward with zero adjusted need still receives the
`min_for_critical` guarantee — see the counterexample.) -/
theorem c3_zero_effectiveness_noncritical (wards : List WardNeed)
    (effectiveness : List (String × ℚ)) (total minc : ℤ) (i : ℕ) (w : WardNeed) (hz : String)
    (hget : wards.get? i = some w)
    (hth : w.top_hazard = some hz)
    (hlk : effectiveness.lookup hz = some 0)
    (hcrit : isCriticalCat w.risk_category = false)
    (ht : 0 < total) :
    (adjustWard effectiveness w).need_score = 0 ∧
    ∃ e, (allocate_resource (adjust_for_effectiveness wards effectiveness) total minc).get? i
        = some e ∧ e.allocated = 0 := by
  have hadj : adjustWard effectiveness w = { w with need_score := 0 } := by
    unfold adjustWard
    rw [hth]
    simp only [Option.getD_some]
    rw [hlk]
    simp
  refine ⟨by rw [hadj], ?_⟩
  have hget2 : (adjust_for_effectiveness wards effectiveness).get? i =
      some ({ w with need_score := 0 }) := by
    unfold adjust_for_effectiveness
    rw [List.get?_map, hget, Option.map_some', hadj]
  set wards2 := adjust_for_effectiveness wards effectiveness with hwards2
  have hw2ne : wards2 ≠ [] := by
    intro hnil
    rw [hnil] at hget2
    simp at hget2
  by_cases hN : totalNeed wards2 ≤ 0
  · refine ⟨⟨{ w with need_score := 0 }, 0⟩, ?_, rfl⟩
    rw [allocate_resource_of_zero_need hw2ne ht hN]
    rw [List.get?_map, hget2, Option.map_some']
  · have hcrit2 : isCriticalCat ({ w with need_score := 0 } : WardNeed).risk_category = false :=
      hcrit
    have hideal0 : idealOf (remainingOf wards2 total minc) (totalNeed wards2)
        ({ w with need_score := 0 }) = 0 := by
      unfold idealOf
      norm_num
    have hfl0 : floorOf (remainingOf wards2 total minc) (totalNeed wards2) minc
        ({ w with need_score := 0 }) = 0 := by
      unfold floorOf gUnits
      rw [hideal0, hcrit2]
      norm_num
    have hnw : ¬ (i ∈ winnersOf wards2 total minc) := by
      intro hiw
      have := winnersOf_pos_rem hN hiw hget2
      rw [remOf_eq_fract, hideal0] at this
      simp [Int.fract_zero] at this
    refine ⟨⟨{ w with need_score := 0 }, 0⟩, ?_, rfl⟩
    rw [allocate_resource_of_pos hw2ne ht hN]
    rw [List.get?_map, List.get?_enum, hget2]
    simp only [Option.map_some']
    rw [hfl0, if_neg hnw]
    norm_num

/-- Witness for C3: a low-risk heat-dominant ward and a water-pump-style
effectiveness map (flood 0.9, heat 0.0): the ward's adjusted need is 0 and
its pipeline allocation is 0. -/
theorem c3_zero_effectiveness_noncritical_witness :
    (adjustWard [("flood", 9/10), ("heat", 0)]
      ⟨0, 5, "low", some "heat", none, none⟩).need_score = 0 ∧
    ∃ e, (allocate_resource (adjust_for_effectiveness
        [⟨0, 5, "low", some "heat", none, none⟩, ⟨1, 10, "critical", some "flood", none, none⟩]
        [("flood", 9/10), ("heat", 0)]) 10 2).get? 0 = some e ∧ e.allocated = 0 :=
  c3_zero_effectiveness_noncritical
    [⟨0, 5, "low", some "heat", none, none⟩, ⟨1, 10, "critical", some "flood", none, none⟩]
    [("flood", 9/10), ("heat", 0)] 10 2 0 ⟨0, 5, "low", some "heat", none, none⟩ "heat"
    rfl rfl (by simp [List.lookup]) (by decide) (by norm_num)

set_option maxHeartbeats 1000000 in
/-- Counterexample to C3 as stated: a *critical* heat-dominant ward with
water pumps (heat effectiveness 0).  Its adjusted need is 0, yet the
pipeline allocates it the critical minimum 2 ≠ 0. -/
theorem c3_counterexample :
    (allocate_resource (adjust_for_effectiveness
        [⟨0, 5, "critical", some "heat", none, none⟩, ⟨1, 10, "low", some "flood", none, none⟩]
        [("flood", 9/10), ("heat", 0)]) 10 2).map (fun e => e.allocated) = [2, 8] ∧
    (2 : ℤ) ≠ 0 := by
  have hlk1 : List.lookup "heat" [("flood", (9 : ℚ)/10), ("heat", 0)] = some 0 := rfl
  have hlk2 : List.lookup "flood" [("flood", (9 : ℚ)/10), ("heat", 0)] = some (9/10) := rfl
  have hA : adjustWard [("flood", (9 : ℚ)/10), ("heat", 0)]
      ⟨0, 5, "critical", some "heat", none, none⟩ =
      ⟨0, 0, "critical", some "heat", none, none⟩ := by
    unfold adjustWard
    simp only [Option.getD_some]
    rw [hlk1]
    norm_num
  have hB : adjustWard [("flood", (9 : ℚ)/10), ("heat", 0)]
      ⟨1, 10, "low", some "flood", none, none⟩ =
      ⟨1, 9, "low", some "flood", none, none⟩ := by
    unfold adjustWard
    simp only [Option.getD_some]
    rw [hlk2]
    norm_num
  have hlist : adjust_for_effectiveness
      [⟨0, 5, "critical", some "heat", none, none⟩, ⟨1, 10, "low", some "flood", none, none⟩]
      [("flood", (9 : ℚ)/10), ("heat", 0)] =
      [⟨0, 0, "critical", some "heat", none, none⟩, ⟨1, 9, "low", some "flood", none, none⟩] := by
    unfold adjust_for_effectiveness
    rw [List.map_cons, List.map_cons, List.map_nil, hA, hB]
  rw [hlist]
  constructor
  · norm_num +decide [allocate_resource, totalNeed, criticalCount, isCriticalCat, winnersOf,
      leftoverOf, totalFloor, remainingOf, indexedRems, floorOf, remOf, idealOf, gUnits,
      List.insertionSort, List.orderedInsert, List.enum, List.enumFrom]
  · decide

/-! ### Need-score claims -/

/-- **C6** (amended).  With `use_delta`, a surge boost is applied whenever
`max(flood_delta_pct, heat_delta_pct) > 0` **and the ward's risk is
positive**: the multiplier is `1 + tier · min(1, risk/60)`, which scales
continuously with the absolute risk rather than being gated by a hard
threshold — every ward with positive risk and positive delta is boosted
(strictly increased need), reaching the full tier factor only at risk ≥ 60;
with `max_delta ≤ 0` the need is unchanged.  (The claim's "for every ward
whose risk is below the gating threshold, no boost is applied" is false —
see the counterexample at risk 1.) -/
theorem c6_surge_boost_scales_with_risk (w : RiskWard) :
    (0 < pyOr w.final_combined_risk 0 →
      0 < max (pyOr w.flood_risk_delta_pct 0) (pyOr w.heat_risk_delta_pct 0) →
      calculate_need_score w false < calculate_need_score w true) ∧
    (max (pyOr w.flood_risk_delta_pct 0) (pyOr w.heat_risk_delta_pct 0) ≤ 0 →
      calculate_need_score w true = calculate_need_score w false) := by
  constructor
  · intro hr hmax
    unfold calculate_need_score
    simp only [if_true, Bool.false_eq_true, if_false]
    rw [if_pos hmax]
    have hpn : 0 ≤ min 1 (max 0 ((pyOr w.population 100000 - 50000) / 400000)) :=
      le_min (by norm_num) (le_max_left _ _)
    have hrw : 0 < (pyOr w.final_combined_risk 0 / 100) ^ 2 := by positivity
    have hbase : 0 < (pyOr w.final_combined_risk 0 / 100) ^ 2 *
        (7/10 + 3/10 * min 1 (max 0 ((pyOr w.population 100000 - 50000) / 400000))) * 100 := by
      have : (0 : ℚ) < 7/10 + 3/10 * min 1 (max 0
          ((pyOr w.population 100000 - 50000) / 400000)) := by linarith
      positivity
    have hgate : 0 < min 1 (pyOr w.final_combined_risk 0 / 60) :=
      lt_min (by norm_num) (by positivity)
    rw [lt_mul_iff_one_lt_right hbase]
    split
    · linarith
    · split
      · linarith
      · linarith
  · intro hmax
    unfold calculate_need_score
    simp only [if_true, Bool.false_eq_true, if_false]
    rw [if_neg (by linarith)]

/-- Witness for C6: a ward with risk 30 and flood delta 25% gets a strict
boost. -/
theorem c6_surge_boost_scales_with_risk_witness :
    calculate_need_score ⟨some 30, some 50000, some 25, none⟩ false <
      calculate_need_score ⟨some 30, some 50000, some 25, none⟩ true :=
  (c6_surge_boost_scales_with_risk ⟨some 30, some 50000, some 25, none⟩).1
    (by norm_num [pyOr]) (by norm_num [pyOr])

/-- Counterexample to C6 as stated: a ward with combined risk 1 — below
any plausible gating threshold (the full-factor point is 60) — and flood
delta 25% still gets a boost: need 0.007035 with `use_delta` versus base
need 0.007. -/
theorem c6_counterexample :
    calculate_need_score ⟨some 1, some 50000, some 25, none⟩ true = 1407/200000 ∧
    calculate_need_score ⟨some 1, some 50000, some 25, none⟩ false = 7/1000 ∧
    (1407/200000 : ℚ) ≠ 7/1000 := by
  refine ⟨?_, ?_, by norm_num⟩
  · norm_num [calculate_need_score, pyOr]
  · norm_num [calculate_need_score, pyOr]

/-! ### Risk-delta and alert claims -/

/-- **C9** (amended).  `calculate_risk_delta` is total: for
`baseline_risk > 0` the returned `delta_pct` is `(event −
baseline)/baseline × 100` **rounded to 2 decimal places**, and for
`baseline_risk = 0` it is `0` (no division error); the record-level
`surge_alert`/`critical_alert` of `calculate_full_risk` are the logical OR
of the per-hazard flood and heat flags.  (The claim omits the rounding —
see the counterexample at event 4, baseline 3.) -/
theorem c9_delta_total_and_record_or (e b : ℚ) (inp : FusionInput) (th pct : ℚ) :
    ((0 < b → (calculate_risk_delta e b).delta_pct = roundq 2 ((e - b) / b * 100)) ∧
     (b = 0 → (calculate_risk_delta e b).delta_pct = 0)) ∧
    ((calculate_full_risk inp th pct).surge_alert =
      ((calculate_risk_delta inp.flood_event inp.flood_baseline).surge_alert ||
       (calculate_risk_delta inp.heat_event inp.heat_baseline).surge_alert) ∧
     (calculate_full_risk inp th pct).critical_alert =
      ((calculate_risk_delta inp.flood_event inp.flood_baseline).critical_alert ||
       (calculate_risk_delta inp.heat_event inp.heat_baseline).critical_alert)) := by
  refine ⟨⟨?_, ?_⟩, rfl, rfl⟩
  · intro hb
    show roundq 2 (if 0 < b then (e - b) / b * 100 else 0) = roundq 2 ((e - b) / b * 100)
    rw [if_pos hb]
  · intro hb
    subst hb
    show roundq 2 (if (0 : ℚ) < 0 then (e - 0) / 0 * 100 else 0) = 0
    norm_num [roundq, rhe]

/-- Witness for C9: at (event, baseline) = (4, 3) the positive-baseline
formula applies, and at baseline 0 the result is 0. -/
theorem c9_delta_total_and_record_or_witness :
    (calculate_risk_delta 4 3).delta_pct = roundq 2 ((4 - 3) / 3 * 100) ∧
    (calculate_risk_delta 4 0).delta_pct = 0 :=
  ⟨((c9_delta_total_and_record_or 4 3
      ⟨0, 0, 0, 0, ⟨0, 0⟩, ⟨0, 0⟩, 0, false, false, []⟩ 80 5).1).1 (by norm_num),
   ((c9_delta_total_and_record_or 4 0
      ⟨0, 0, 0, 0, ⟨0, 0⟩, ⟨0, 0⟩, 0, false, false, []⟩ 80 5).1).2 rfl⟩

/-- Counterexample to C9 as stated: at event 4, baseline 3 the returned
`delta_pct` is 33.33, not the exact 100/3. -/
theorem c9_counterexample :
    (calculate_risk_delta 4 3).delta_pct = 3333/100 ∧
    (3333/100 : ℚ) ≠ (4 - 3) / 3 * 100 := by
  constructor
  · norm_num [calculate_risk_delta, roundq, rhe]
  · norm_num

/-! ### Fusion round-trip and spillover claims -/

theorem roundq_max_idem (d : ℕ) (x y : ℚ) :
    roundq d (max (roundq d x) (roundq d y)) = max (roundq d x) (roundq d y) := by
  rcases max_choice (roundq d x) (roundq d y) with h | h <;> rw [h, roundq_idem]

/-- **C4** (amended).  For every ward **for which spillover was not
applied**, feeding the stored `final_combined_risk` (rounded to 2 decimal
places) back through `get_risk_category` reproduces the stored
`risk_category`.  (With spillover the multiplication by `1 + boost` is not
re-rounded before classification, and the 2-decimal rounding of the stored
value can cross a category threshold — see the counterexample, where the
combined risk 79.9995 is classified "high" but its stored rounding 80.00
classifies as "critical".) -/
theorem c4_roundtrip_category (inp : FusionInput) (th pct : ℚ)
    (hs : (calculate_full_risk inp th pct).spillover_applied = false) :
    get_risk_category (calculate_full_risk inp th pct).final_combined_risk =
      (calculate_full_risk inp th pct).risk_category := by
  have hse : (spillover_sources_of inp th).isEmpty = true := by
    have hs2 : (!(spillover_sources_of inp th).isEmpty) = false := hs
    simpa using hs2
  have hf : (calculate_full_risk inp th pct).final_flood_risk =
      roundq 2 (min 100 (max 0 (ML_COMPOSITE_WEIGHT * inp.flood_event +
        ML_MODEL_WEIGHT * inp.ml_flood.probability * 100))) := by
    show (if (spillover_sources_of inp th).isEmpty then _ else _) = _
    rw [if_pos hse]
  have hh : (calculate_full_risk inp th pct).final_heat_risk =
      roundq 2 (min 100 (max 0 (ML_COMPOSITE_WEIGHT * inp.heat_event +
        ML_MODEL_WEIGHT * inp.ml_heat.probability * 100))) := by
    show (if (spillover_sources_of inp th).isEmpty then _ else _) = _
    rw [if_pos hse]
  have h1 : (calculate_full_risk inp th pct).final_combined_risk =
      roundq 2 (max (calculate_full_risk inp th pct).final_flood_risk
        (calculate_full_risk inp th pct).final_heat_risk) := rfl
  have h2 : (calculate_full_risk inp th pct).risk_category =
      get_risk_category (max (calculate_full_risk inp th pct).final_flood_risk
        (calculate_full_risk inp th pct).final_heat_risk) := rfl
  rw [h1, h2, hf, hh, roundq_max_idem]

/-- Witness for C4: a record computed without a db session has no
spillover, and its stored combined risk classifies back to its stored
category. -/
theorem c4_roundtrip_category_witness :
    get_risk_category (calculate_full_risk
      ⟨0, 0, 50, 40, ⟨0, 1/2⟩, ⟨0, 1/2⟩, 0, false, false, []⟩ 80 5).final_combined_risk =
    (calculate_full_risk
      ⟨0, 0, 50, 40, ⟨0, 1/2⟩, ⟨0, 1/2⟩, 0, false, false, []⟩ 80 5).risk_category :=
  c4_roundtrip_category ⟨0, 0, 50, 40, ⟨0, 1/2⟩, ⟨0, 1/2⟩, 0, false, false, []⟩ 80 5 rfl

/-- Counterexample to C4 as stated: flood event 100 with ML flood
probability 0.40475 fuses to 76.19; a triggering neighbor (prior risk 85 ≥
threshold 80) boosts it to 79.9995, classified "high", but the stored
2-decimal value is 80.00, which classifies as "critical". -/
theorem c4_counterexample :
    (calculate_full_risk ⟨50, 10, 100, 0, ⟨8095/20000, 1/2⟩, ⟨0, 1/2⟩, 1/2, false, true,
      [(7, some 85)]⟩ 80 5).risk_category = "high" ∧
    (calculate_full_risk ⟨50, 10, 100, 0, ⟨8095/20000, 1/2⟩, ⟨0, 1/2⟩, 1/2, false, true,
      [(7, some 85)]⟩ 80 5).final_combined_risk = 80 ∧
    get_risk_category (80 : ℚ) = "critical" ∧ ("critical" : String) ≠ "high" := by
  refine ⟨?_, ?_, ?_, by decide⟩
  · norm_num [calculate_full_risk, spillover_sources_of, spillTrigger, get_risk_category,
      ML_COMPOSITE_WEIGHT, ML_MODEL_WEIGHT, RISK_HIGH_THRESHOLD, RISK_MODERATE_THRESHOLD,
      RISK_LOW_THRESHOLD, roundq, rhe]
  · norm_num [calculate_full_risk, spillover_sources_of, spillTrigger,
      ML_COMPOSITE_WEIGHT, ML_MODEL_WEIGHT, roundq, rhe]
  · norm_num [get_risk_category, RISK_HIGH_THRESHOLD]

/-- **C8** (confirmed).  With a db session present and a positive
configured threshold: spillover is applied iff some neighbor's most recent
prior record has combined risk ≥ the threshold; when applied, each of
final_flood and final_heat is exactly the no-spillover value multiplied
once by `(1 + boost_pct/100)` and clamped to 100 — regardless of how many
neighbors triggered; when not applied (in particular when no neighbor has
any prior record) both risks equal the no-spillover values unchanged. -/
theorem c8_spillover_once_iff (inp : FusionInput) (th pct : ℚ)
    (hdb : inp.hasDb = true) (hth : 0 < th) :
    ((calculate_full_risk inp th pct).spillover_applied = true ↔
      ∃ nb ∈ inp.neighbors, ∃ v, nb.2 = some v ∧ th ≤ v) ∧
    ((calculate_full_risk inp th pct).spillover_applied = true →
      (calculate_full_risk inp th pct).final_flood_risk =
        min 100 ((calculate_full_risk { inp with neighbors := [] } th pct).final_flood_risk *
          (1 + pct / 100)) ∧
      (calculate_full_risk inp th pct).final_heat_risk =
        min 100 ((calculate_full_risk { inp with neighbors := [] } th pct).final_heat_risk *
          (1 + pct / 100))) ∧
    ((calculate_full_risk inp th pct).spillover_applied = false →
      (calculate_full_risk inp th pct).final_flood_risk =
        (calculate_full_risk { inp with neighbors := [] } th pct).final_flood_risk ∧
      (calculate_full_risk inp th pct).final_heat_risk =
        (calculate_full_risk { inp with neighbors := [] } th pct).final_heat_risk) := by
  have htrig : ∀ o : Option ℚ, spillTrigger th o = true ↔ ∃ v, o = some v ∧ th ≤ v := by
    intro o
    cases o with
    | none => simp [spillTrigger]
    | some v =>
      simp only [spillTrigger, Bool.and_eq_true, decide_eq_true_eq]
      constructor
      · rintro ⟨_, hle⟩
        exact ⟨v, rfl, hle⟩
      · rintro ⟨v2, hv2, hle⟩
        injection hv2 with hvv
        subst hvv
        refine ⟨?_, hle⟩
        intro h0
        rw [h0] at hle
        linarith
  have hsrc : spillover_sources_of inp th =
      ((inp.neighbors.filter (fun nb => spillTrigger th nb.2)).map (fun nb => nb.1)) := by
    unfold spillover_sources_of
    rw [if_pos hdb]
  have hsrc0 : spillover_sources_of { inp with neighbors := [] } th = [] := by
    unfold spillover_sources_of
    split <;> rfl
  have happ : (calculate_full_risk inp th pct).spillover_applied =
      !(spillover_sources_of inp th).isEmpty := rfl
  have hiff : (calculate_full_risk inp th pct).spillover_applied = true ↔
      ∃ nb ∈ inp.neighbors, ∃ v, nb.2 = some v ∧ th ≤ v := by
    rw [happ, Bool.not_eq_true', List.isEmpty_eq_false, hsrc]
    constructor
    · intro hne
      have hfne : inp.neighbors.filter (fun nb => spillTrigger th nb.2) ≠ [] := by
        intro h
        rw [h] at hne
        simp at hne
      rcases List.exists_mem_of_ne_nil _ hfne with ⟨nb, hnb⟩
      rcases List.mem_filter.mp hnb with ⟨hmem, htr⟩
      rcases (htrig nb.2).mp htr with ⟨v, hv, hle⟩
      exact ⟨nb, hmem, v, hv, hle⟩
    · rintro ⟨nb, hmem, v, hv, hle⟩
      intro hmapnil
      rw [List.map_eq_nil] at hmapnil
      have : spillTrigger th nb.2 = true := (htrig nb.2).mpr ⟨v, hv, hle⟩
      have hnbf : nb ∈ inp.neighbors.filter (fun nb => spillTrigger th nb.2) :=
        List.mem_filter.mpr ⟨hmem, this⟩
      rw [hmapnil] at hnbf
      simp at hnbf
  have hf0 : (calculate_full_risk { inp with neighbors := [] } th pct).final_flood_risk =
      roundq 2 (min 100 (max 0 (ML_COMPOSITE_WEIGHT * inp.flood_event +
        ML_MODEL_WEIGHT * inp.ml_flood.probability * 100))) := by
    show (if (spillover_sources_of { inp with neighbors := [] } th).isEmpty then _ else _) = _
    rw [hsrc0]
    rfl
  have hh0 : (calculate_full_risk { inp with neighbors := [] } th pct).final_heat_risk =
      roundq 2 (min 100 (max 0 (ML_COMPOSITE_WEIGHT * inp.heat_event +
        ML_MODEL_WEIGHT * inp.ml_heat.probability * 100))) := by
    show (if (spillover_sources_of { inp with neighbors := [] } th).isEmpty then _ else _) = _
    rw [hsrc0]
    rfl
  refine ⟨hiff, ?_, ?_⟩
  · intro happT
    have hne : (spillover_sources_of inp th).isEmpty = false := by
      rw [happ] at happT
      simpa using happT
    constructor
    · show (if (spillover_sources_of inp th).isEmpty then _ else _) = _
      rw [hne, hf0]
      rfl
    · show (if (spillover_sources_of inp th).isEmpty then _ else _) = _
      rw [hne, hh0]
      rfl
  · intro happF
    have hne : (spillover_sources_of inp th).isEmpty = true := by
      rw [happ] at happF
      simpa using happF
    constructor
    · show (if (spillover_sources_of inp th).isEmpty then _ else _) = _
      rw [hne, hf0]
      rfl
    · show (if (spillover_sources_of inp th).isEmpty then _ else _) = _
      rw [hne, hh0]
      rfl

/-- Witness for C8: one neighbor with prior combined risk 85 and threshold
80 triggers spillover. -/
theorem c8_spillover_once_iff_witness :
    (calculate_full_risk ⟨50, 40, 50, 40, ⟨0, 1/2⟩, ⟨0, 1/2⟩, 1/2, false, true,
      [(7, some 85)]⟩ 80 5).spillover_applied = true :=
  (c8_spillover_once_iff ⟨50, 40, 50, 40, ⟨0, 1/2⟩, ⟨0, 1/2⟩, 1/2, false, true,
      [(7, some 85)]⟩ 80 5 rfl (by norm_num)).1.mpr
    ⟨(7, some 85), by simp, 85, rfl, by norm_num⟩

/-! ### ML-fallback degradation (C5) -/

theorem fallback_flood_probability_mem (features : List ℚ) :
    0 ≤ fallback_flood_probability features ∧ fallback_flood_probability features ≤ 1 := by
  unfold fallback_flood_probability
  constructor
  · exact le_max_left _ _
  · exact max_le (by norm_num) (min_le_left _ _)

theorem fallback_heat_probability_mem (features : List ℚ) :
    0 ≤ fallback_heat_probability features ∧ fallback_heat_probability features ≤ 1 := by
  unfold fallback_heat_probability
  constructor
  · exact le_max_left _ _
  · exact max_le (by norm_num) (min_le_left _ _)

theorem heat_attenuation_mem (ward : MLWard) (weather_data : Option WeatherData) :
    0 ≤ heat_attenuation ward weather_data ∧ heat_attenuation ward weather_data ≤ 1 := by
  unfold heat_attenuation
  cases weather_data with
  | none => norm_num
  | some wd =>
    dsimp only
    split
    · norm_num
    · split_ifs <;> norm_num

/-- **C5** (amended).  When no trained model is available the pipeline
does **not** degrade to composite-only risk: `predict_flood`/`predict_heat`
substitute a deterministic rule-based fallback probability — always
defined, in [0, 1], with confidence 0.5 — and `calculate_full_risk`
blends it with the usual 0.4 ML weight; the resulting final risks are
still clamped into [0, 100] and the computation never fails.  (The
claim's "final risks equal the clamped composite event risk alone, ML
weight effectively 0" is false — see the counterexample.) -/
theorem c5_fallback_blended (ward : MLWard) (weather : Option WeatherData)
    (inp : FusionInput) (th pct : ℚ) (hpct : 0 ≤ pct)
    (hfl : inp.ml_flood = predict_flood_noModel ward weather)
    (hht : inp.ml_heat = predict_heat_noModel ward weather) :
    (0 ≤ (predict_flood_noModel ward weather).probability ∧
      (predict_flood_noModel ward weather).probability ≤ 1 ∧
      (predict_flood_noModel ward weather).confidence = 1/2) ∧
    (0 ≤ (predict_heat_noModel ward weather).probability ∧
      (predict_heat_noModel ward weather).probability ≤ 1 ∧
      (predict_heat_noModel ward weather).confidence = 1/2) ∧
    (0 ≤ (calculate_full_risk inp th pct).final_flood_risk ∧
      (calculate_full_risk inp th pct).final_flood_risk ≤ 100 ∧
      0 ≤ (calculate_full_risk inp th pct).final_heat_risk ∧
      (calculate_full_risk inp th pct).final_heat_risk ≤ 100) := by
  have hconf : roundq 4 ((1 : ℚ)/2) = 1/2 := by
    norm_num [roundq, rhe]
  refine ⟨⟨?_, ?_, hconf⟩, ⟨?_, ?_, hconf⟩, ?_⟩
  · exact roundq_nonneg 4 (fallback_flood_probability_mem _).1
  · have h1 := (fallback_flood_probability_mem (extract_features ward weather)).2
    have := roundq_le_intCast (k := 1) 4 (by exact_mod_cast h1)
    simpa using this
  · exact roundq_nonneg 4 (mul_nonneg (fallback_heat_probability_mem _).1
      (heat_attenuation_mem ward weather).1)
  · have h1 : fallback_heat_probability (extract_features ward weather) *
        heat_attenuation ward weather ≤ 1 := by
      have ha := fallback_heat_probability_mem (extract_features ward weather)
      have hb := heat_attenuation_mem ward weather
      nlinarith [ha.1, ha.2, hb.1, hb.2]
    have := roundq_le_intCast (k := 1) 4 (by exact_mod_cast h1)
    simpa using this
  · -- final risks stay clamped in [0, 100], with or without spillover
    have hbound : ∀ x : ℚ, 0 ≤ roundq 2 (min 100 (max 0 x)) ∧
        roundq 2 (min 100 (max 0 x)) ≤ 100 := by
      intro x
      constructor
      · exact roundq_nonneg 2 (le_min (by norm_num) (le_max_left _ _))
      · have := roundq_le_intCast (k := 100) 2 (by
          exact_mod_cast (min_le_left (100 : ℚ) (max 0 x)))
        simpa using this
    have hspill : ∀ x : ℚ, 0 ≤ roundq 2 (min 100 (max 0 x)) →
        0 ≤ min 100 (roundq 2 (min 100 (max 0 x)) * (1 + pct / 100)) ∧
        min 100 (roundq 2 (min 100 (max 0 x)) * (1 + pct / 100)) ≤ 100 := by
      intro x hx
      constructor
      · apply le_min (by norm_num)
        apply mul_nonneg hx
        have : (0 : ℚ) ≤ pct / 100 := by positivity
        linarith
      · exact min_le_left _ _
    have hf : (calculate_full_risk inp th pct).final_flood_risk =
        if (spillover_sources_of inp th).isEmpty then
          roundq 2 (min 100 (max 0 (ML_COMPOSITE_WEIGHT * inp.flood_event +
            ML_MODEL_WEIGHT * inp.ml_flood.probability * 100)))
        else min 100 (roundq 2 (min 100 (max 0 (ML_COMPOSITE_WEIGHT * inp.flood_event +
            ML_MODEL_WEIGHT * inp.ml_flood.probability * 100))) * (1 + pct / 100)) := rfl
    have hh : (calculate_full_risk inp th pct).final_heat_risk =
        if (spillover_sources_of inp th).isEmpty then
          roundq 2 (min 100 (max 0 (ML_COMPOSITE_WEIGHT * inp.heat_event +
            ML_MODEL_WEIGHT * inp.ml_heat.probability * 100)))
        else min 100 (roundq 2 (min 100 (max 0 (ML_COMPOSITE_WEIGHT * inp.heat_event +
            ML_MODEL_WEIGHT * inp.ml_heat.probability * 100))) * (1 + pct / 100)) := rfl
    rw [hf, hh]
    by_cases hse : (spillover_sources_of inp th).isEmpty
    · rw [if_pos hse, if_pos hse]
      exact ⟨(hbound _).1, (hbound _).2, (hbound _).1, (hbound _).2⟩
    · rw [if_neg hse, if_neg hse]
      exact ⟨(hspill _ (hbound _).1).1, (hspill _ (hbound _).1).2,
        (hspill _ (hbound _).1).1, (hspill _ (hbound _).1).2⟩

/-- Witness for C5: the all-defaults ward with no weather data and no
trained model. -/
theorem c5_fallback_blended_witness :
    0 ≤ (predict_flood_noModel ⟨none, none, none, none, none, none, none, none, none, none⟩
      none).probability ∧
    (predict_flood_noModel ⟨none, none, none, none, none, none, none, none, none, none⟩
      none).probability ≤ 1 ∧
    (predict_flood_noModel ⟨none, none, none, none, none, none, none, none, none, none⟩
      none).confidence = 1/2 :=
  (c5_fallback_blended ⟨none, none, none, none, none, none, none, none, none, none⟩ none
    ⟨50, 40, 50, 40,
      predict_flood_noModel ⟨none, none, none, none, none, none, none, none, none, none⟩ none,
      predict_heat_noModel ⟨none, none, none, none, none, none, none, none, none, none⟩ none,
      1/2, false, false, []⟩ 80 5 (by norm_num) rfl rfl).1

/-- Counterexample to C5 as stated: with no trained model, the all-defaults
ward's rule-based flood fallback probability is 0.14, and with composite
flood event risk 50 the fused `final_flood_risk` is 35.6 — neither the
clamped composite event risk alone (50) nor the ML-weight-zero blend
(0.6 × 50 = 30). -/
theorem c5_counterexample :
    (predict_flood_noModel ⟨none, none, none, none, none, none, none, none, none, none⟩
      none).probability = 7/50 ∧
    (calculate_full_risk ⟨50, 40, 50, 40,
      predict_flood_noModel ⟨none, none, none, none, none, none, none, none, none, none⟩ none,
      predict_heat_noModel ⟨none, none, none, none, none, none, none, none, none, none⟩ none,
      1/2, false, false, []⟩ 80 5).final_flood_risk = 178/5 ∧
    (178/5 : ℚ) ≠ 50 ∧ (178/5 : ℚ) ≠ 3/5 * 50 := by
  have hprob : (predict_flood_noModel
      ⟨none, none, none, none, none, none, none, none, none, none⟩ none).probability = 7/50 := by
    norm_num [predict_flood_noModel, extract_features, fallback_flood_probability, pyOr,
      List.getD, roundq, rhe]
  refine ⟨hprob, ?_, by norm_num, by norm_num⟩
  have hf : (calculate_full_risk ⟨50, 40, 50, 40,
      predict_flood_noModel ⟨none, none, none, none, none, none, none, none, none, none⟩ none,
      predict_heat_noModel ⟨none, none, none, none, none, none, none, none, none, none⟩ none,
      1/2, false, false, []⟩ 80 5).final_flood_risk =
      roundq 2 (min 100 (max 0 (ML_COMPOSITE_WEIGHT * 50 +
        ML_MODEL_WEIGHT * (predict_flood_noModel
          ⟨none, none, none, none, none, none, none, none, none, none⟩ none).probability *
          100))) := rfl
  rw [hf, hprob]
  norm_num [ML_COMPOSITE_WEIGHT, ML_MODEL_WEIGHT, roundq, rhe]

end DRP
